import Mathlib

/-!
Shallow embedding of `tab-election` (src/src/index.ts).

The file models the two variants found in the source:

* the lock-based `Tab` class (BroadcastChannel + Web Locks API), and
* the heartbeat/election function `waitForLeadership` (namespace `HB` below).

JavaScript values appearing in message payloads are modelled by the
inductive `Arg` (strings, numbers, user values, error objects, null);
user-level values are a type parameter `V`.  Effects (channel posts,
dispatched events, console logging, promise settlement) are collected in
an output list.  Asynchronous self-delivery of a posted message re-enters
`_onMessage`; that re-entry is bounded by an explicit fuel parameter
(the source's call graph has bounded depth: onLeader → onCall → onReturn).
-/

namespace TabElection

/-- A message target (`tgt` in the source): a string selector/id, a `Set`
of ids, or a nullish value. `To.All`, `To.Others`, `To.Leader` are the
string constants of the `To` enum. -/
inductive Target
  | null
  | str (s : String)
  | idSet (ids : List String)
  deriving DecidableEq, Repr

def To.All : Target := .str "all"
def To.Others : Target := .str "others"
def To.Leader : Target := .str "leader"

/-- A JavaScript value travelling in a message's `rest` array. -/
inductive Arg (V : Type)
  | str (s : String)
  | num (n : Nat)
  | val (v : V)
  | err (e : String)
  | null
  deriving DecidableEq, Repr

/-- An entry of `_queuedCalls`: `{ id, name, rest }`. -/
structure QueuedCall (V : Type) where
  id : String
  name : String
  rest : List V
  deriving DecidableEq, Repr

/-- The leader's API method table: string-keyed lookup of (possibly
failing) methods, as used by `this._api?.[name]`. -/
def Api (V : Type) := String → Option (List V → Except String V)

/-- An entry of `_callDeferreds`: the bookkeeping of a pending call.  The
`resolve`/`reject` continuations settle the caller's promise (modelled
as `Output.resolved`/`Output.rejected`); `timeout` records the
millisecond delay registered with `setTimeout`. -/
structure Deferred where
  timeout : Nat
  deriving DecidableEq, Repr

/-- The mutable fields of a `Tab` instance. -/
structure Tab (V : Type) where
  id : String
  isLeader : Bool := false
  isLeaderReady : Bool := false
  state : V
  callCount : Nat := 0
  /-- Source `_callDeferreds : Map<number, Deferred>` in insertion order. -/
  callDeferreds : List (Nat × Deferred) := []
  /-- Source `_queuedCalls : Map<number, {id, name, rest}>` in insertion order. -/
  queuedCalls : List (Nat × QueuedCall V) := []
  api : Option (Api V) := none
  /-- Source `_callerId`, the single mutable caller-attribution slot. -/
  callerId : Option String := none

/-- Observable effects of a step. -/
inductive Output (V : Type)
  | posted (tgt : Target) (name : String) (rest : List (Arg V))
  | event (name : String)
  | logged (msg : String)
  | resolved (callNumber : Nat) (v : Option V)
  | rejected (callNumber : Nat) (e : String)
  | thrown (e : String)
  deriving DecidableEq, Repr

/-- Source `Map.get`. -/
def mapGet {α : Type} (m : List (Nat × α)) (k : Nat) : Option α :=
  (m.find? (fun p => p.1 = k)).map (fun p => p.2)

/-- Source `Map.set`: updates in place (keeping insertion order) or appends. -/
def mapSet {α : Type} (m : List (Nat × α)) (k : Nat) (v : α) : List (Nat × α) :=
  if m.any (fun p => p.1 = k) then
    m.map (fun p => if p.1 = k then (k, v) else p)
  else m ++ [(k, v)]

/-- Source `Map.delete`. -/
def mapDelete {α : Type} (m : List (Nat × α)) (k : Nat) : List (Nat × α) :=
  m.filter (fun p => ¬ p.1 = k)

/-- JavaScript truthiness test performed by `_postMessage`:
`!tgt || tgt instanceof Set && !tgt.size`. A nullish `tgt` and the empty
string are falsy; an empty `Set` is caught by the second disjunct. -/
def targetFalsy : Target → Bool
  | .null => true
  | .str s => s = ""
  | .idSet ids => ids.isEmpty

/-- Source `_isToMe(tgt)` from the source (only reached with non-falsy `tgt`). -/
def isToMe {V : Type} (t : Tab V) (tgt : Target) : Bool :=
  match tgt with
  | .str s => (s = "leader" && t.isLeader) || s = t.id || s = "all" || s = "others"
  | .idSet ids => ids.contains t.id
  | .null => false

/-- The type of the posting primitive threaded through the handlers
(`this._postMessage` in the source). -/
def PostFn (V : Type) :=
  Tab V → Target → String → List (Arg V) → Tab V × List (Output V)

/-- The error message thrown by `_onCall` for a missing method. -/
def invalidApiMethod (name : String) : String :=
  "Invalid API method \"" ++ name ++ "\""

/-- Source `_onReturn(callNumber, error, results)`. -/
def _onReturn {V : Type} (t : Tab V) (callNumber : Nat) (error : Option String)
    (results : Option V) : Tab V × List (Output V) :=
  match mapGet t.callDeferreds callNumber with
  | none => (t, [.logged "No deferred found for call"])
  | some _ =>
    let t1 := { t with callDeferreds := mapDelete t.callDeferreds callNumber }
    match error with
    | some e => (t1, [.rejected callNumber e])
    | none => (t1, [.resolved callNumber results])

/-- Source `_onState(data)`: overwrite the cached state, dispatch a `state` event. -/
def _onState {V : Type} (t : Tab V) (data : V) : Tab V × List (Output V) :=
  ({ t with state := data }, [.event "state"])

/-- Source `_onSend(data)`: dispatch a `message` event. -/
def _onSend {V : Type} (t : Tab V) (_data : Arg V) : Tab V × List (Output V) :=
  (t, [.event "message"])

/-- Source `_onCall(id, callNumber, name, ...rest)`.  The `post` parameter is
the tab's `_postMessage` primitive. -/
def _onCall {V : Type} (post : PostFn V) (t : Tab V) (id : String)
    (callNumber : Nat) (name : String) (rest : List V) : Tab V × List (Output V) :=
  if !t.isLeader then (t, [])
  else if !t.isLeaderReady then
    ({ t with queuedCalls := mapSet t.queuedCalls callNumber ⟨id, name, rest⟩ }, [])
  else
    match t.api.bind (fun a => a name) with
    | none =>
      -- `typeof this._api?.[name] !== 'function'` throws; the catch block
      -- clears `_callerId` and posts the error return.
      post { t with callerId := none } (.str id) "onReturn"
        [.num callNumber, .err (invalidApiMethod name)]
    | some f =>
      -- `_callerId` is set for the synchronous part of the invocation and
      -- cleared before awaiting the result.
      match f rest with
      | .ok results =>
        post { t with callerId := none } (.str id) "onReturn"
          [.num callNumber, .null, .val results]
      | .error e =>
        post { t with callerId := none } (.str id) "onReturn"
          [.num callNumber, .err e]

/-- Source `_onSendState(id)`: the leader answers a state request. -/
def _onSendState {V : Type} (post : PostFn V) (t : Tab V) (id : String) :
    Tab V × List (Output V) :=
  if t.isLeader then post t (.str id) "onState" [.val t.state]
  else (t, [])

/-- Replay loop of `_onLeader`: `this._queuedCalls.forEach(({id, name, rest},
callNumber) => this._postMessage(To.Leader, 'onCall', callNumber, name,
...rest))`.  NOTE the argument list the source builds here: it starts with
`callNumber`, not with the queued caller `id`. -/
def onLeaderReplay {V : Type} (post : PostFn V) :
    Tab V → List (Nat × QueuedCall V) → Tab V × List (Output V)
  | t, [] => (t, [])
  | t, (callNumber, qc) :: rest =>
    let r1 := post t To.Leader "onCall"
      ([Arg.num callNumber, Arg.str qc.name] ++ qc.rest.map Arg.val)
    let r2 := onLeaderReplay post r1.1 rest
    (r2.1, r1.2 ++ r2.2)

/-- Source `_onLeader(state)`: adopt the new leader's state, replay the queued
calls, clear the queue. -/
def _onLeader {V : Type} (post : PostFn V) (t : Tab V) (state : V) :
    Tab V × List (Output V) :=
  let r1 := _onState t state
  let r2 := onLeaderReplay post r1.1 r1.1.queuedCalls
  ({ r2.1 with queuedCalls := [] }, r1.2 ++ r2.2)

/-- Decode a `rest` tail of user values. -/
def decodeVals {V : Type} : List (Arg V) → Option (List V)
  | [] => some []
  | .val v :: rest => (decodeVals rest).map (fun vs => v :: vs)
  | _ => none

/-- Source `_onMessage(event)`: filter by `_isToMe`, dispatch by message name.
A payload whose arguments do not have the shapes the listed handlers
destructure positionally ends in a runtime type error in the source;
that outcome is recorded as `Output.thrown`. -/
def _onMessage {V : Type} (post : PostFn V) (t : Tab V) (tgt : Target)
    (name : String) (rest : List (Arg V)) : Tab V × List (Output V) :=
  if !isToMe t tgt then (t, [])
  else if name = "onCall" then
    match rest with
    | .str id :: .num callNumber :: .str mname :: vals =>
      match decodeVals vals with
      | some vs => _onCall post t id callNumber mname vs
      | none => (t, [.thrown "TypeError"])
    | _ => (t, [.thrown "TypeError"])
  else if name = "onReturn" then
    match rest with
    | [.num callNumber, .err e] => _onReturn t callNumber (some e) none
    | [.num callNumber, .null, .val r] => _onReturn t callNumber none (some r)
    | [.num callNumber, .null] => _onReturn t callNumber none none
    | _ => (t, [.thrown "TypeError"])
  else if name = "onState" then
    match rest with
    | [.val v] => _onState t v
    | _ => (t, [.thrown "TypeError"])
  else if name = "onSend" then
    match rest with
    | [d] => _onSend t d
    | _ => (t, [.thrown "TypeError"])
  else if name = "onSendState" then
    match rest with
    | [.str id] => _onSendState post t id
    | _ => (t, [.thrown "TypeError"])
  else if name = "onLeader" then
    match rest with
    | [.val v] => _onLeader post t v
    | _ => (t, [.thrown "TypeError"])
  else (t, [.logged "Unknown message"])

/-- Source `_postMessage(tgt, name, ...rest)`: drop falsy/empty targets, post the
envelope on the channel, and synthesize local delivery unless the target
is `To.Others`.  `fuel` bounds the self-delivery re-entry (the source's
dispatch depth is bounded). -/
def _postMessage {V : Type} (fuel : Nat) (t : Tab V) (tgt : Target)
    (name : String) (rest : List (Arg V)) : Tab V × List (Output V) :=
  if targetFalsy tgt then (t, [])
  else
    let toMe := !(tgt = To.Others : Bool) && isToMe t tgt
    let out : Output V := .posted tgt name rest
    if toMe then
      match fuel with
      | 0 => (t, [out])
      | fuel' + 1 =>
        let r1 := _onMessage (_postMessage fuel') t tgt name rest
        (r1.1, out :: r1.2)
    else (t, [out])

/-- Source `setState(state)`: throws unless leader; otherwise updates the local
copy via `_onState` and broadcasts it, addressed `To.Others`. -/
def setState {V : Type} (fuel : Nat) (t : Tab V) (state : V) :
    Except String (Tab V × List (Output V)) :=
  if !t.isLeader then .error "Only the leader can set state"
  else
    let r1 := _onState t state
    let r2 := _postMessage fuel r1.1 To.Others "onState" [.val state]
    .ok (r2.1, r1.2 ++ r2.2)

/-- Source `send(data, tgt = To.Others)`. -/
def send {V : Type} (fuel : Nat) (t : Tab V) (data : Arg V) (tgt : Target) :
    Tab V × List (Output V) :=
  _postMessage fuel t tgt "onSend" [data]

/-- Source `hasLeader()`: each probe result is `true` when the lock was
unavailable (`lock === null`, a leader exists elsewhere).  Returns the
method's resolution value (`none` models resolving with no value /
`undefined`) together with the number of probes performed. -/
def hasLeader (probe1 probe2 : Bool) : Option Bool × Nat :=
  if probe1 then (some probe2, 2) else (none, 1)

/-- JavaScript truthiness of the awaited `hasLeader()` value inside
`call` (`undefined` and `false` are both falsy). -/
def existsTruthy : Option Bool → Bool
  | some b => b
  | none => false

/-- The registration prefix of `call`: allocate the next call number and
store a pending-call record whose timer rejects after 30 000 ms. -/
def callRegister {V : Type} (t : Tab V) : Tab V × Nat :=
  let callNumber := t.callCount + 1
  ({ t with
      callCount := callNumber,
      callDeferreds := mapSet t.callDeferreds callNumber ⟨30000⟩ }, callNumber)

/-- The `setTimeout` handler registered by `call`: delete the pending
call and reject with the timeout error. -/
def callTimeoutFire {V : Type} (t : Tab V) (callNumber : Nat) :
    Tab V × List (Output V) :=
  ({ t with callDeferreds := mapDelete t.callDeferreds callNumber },
    [.rejected callNumber "Call timed out"])

/-- Source `call(name, ...rest)`.  `hasLeaderResult` is the value the awaited
`hasLeader()` probe resolves with on the non-leader path (the re-check
of `isLeader && isLeaderReady` after the await reads the same state in
this single-peer model).  Returns the new state, the allocated call
number and the outputs. -/
def call {V : Type} (fuel : Nat) (t : Tab V) (hasLeaderResult : Option Bool)
    (name : String) (rest : List V) : Tab V × Nat × List (Output V) :=
  let t0 := (callRegister t).1
  let callNumber := (callRegister t).2
  if t0.isLeader && t0.isLeaderReady then
    let r1 := _onCall (_postMessage fuel) t0 t0.id callNumber name rest
    (r1.1, callNumber, r1.2)
  else if !t0.isLeader && existsTruthy hasLeaderResult then
    let r1 := _postMessage fuel t0 To.Leader "onCall"
      ([Arg.str t0.id, Arg.num callNumber, Arg.str name] ++ rest.map Arg.val)
    (r1.1, callNumber, r1.2)
  else
    ({ t0 with queuedCalls := mapSet t0.queuedCalls callNumber ⟨t0.id, name, rest⟩ },
      callNumber, [])

/-- How one invocation of `waitForLeadership` settles.  Runs in which the
lock is acquired and `relinquishLeadership` is never called do not
settle and are outside this enumeration. -/
inductive LockRun (V : Type)
  /-- Source `relinquishLeadership` aborted the request before the lock was
  acquired: the lock request rejects with the string `'Aborted'`. -/
  | abortedBeforeAcquire
  /-- the lock request rejected with some other reason `e` before the
  lock was acquired. -/
  | requestError (e : String)
  /-- the lock was acquired but the `onLeadership` initializer threw `e`,
  so the held-lock callback's promise rejects with `e`. -/
  | acquiredInitError (e : String)
  /-- the lock was acquired, `onLeadership` returned the method table
  `api`, and `relinquishLeadership` was later called, resolving the
  keep-lock promise with `true`. -/
  | acquiredThenRelinquished (api : Api V)

/-- Source `.catch(e => e !== 'Aborted' && Promise.reject(e) || false)`. -/
def catchHandler (e : String) : Except String Bool :=
  if ¬ e = "Aborted" then .error e else .ok false

/-- The `finally` block of `waitForLeadership`: drop leadership, clear
the stored API, dispatch `leadershipchange`. -/
def finallyBlock {V : Type} (t : Tab V) : Tab V × List (Output V) :=
  ({ t with isLeader := false, api := none }, [.event "leadershipchange"])

/-- Replay loop inside the held-lock callback:
`this._queuedCalls.forEach(({id, name, rest}, callNumber) =>
this._onCall(id, callNumber, name, ...rest))`. -/
def readyReplay {V : Type} (post : PostFn V) :
    Tab V → List (Nat × QueuedCall V) → Tab V × List (Output V)
  | t, [] => (t, [])
  | t, (callNumber, qc) :: rest =>
    let r1 := _onCall post t qc.id callNumber qc.name qc.rest
    let r2 := readyReplay post r1.1 rest
    (r2.1, r1.2 ++ r2.2)

/-- Source `waitForLeadership(onLeadership)`, per settling run.  Returns the
final state, the promise's resolution (`Except.error` models a
rejection), and the outputs in order. -/
def waitForLeadership {V : Type} (fuel : Nat) (t : Tab V) (run : LockRun V) :
    Tab V × Except String Bool × List (Output V) :=
  match run with
  | .abortedBeforeAcquire =>
    let r1 := finallyBlock t
    (r1.1, catchHandler "Aborted", r1.2)
  | .requestError e =>
    let r1 := finallyBlock t
    (r1.1, catchHandler e, r1.2)
  | .acquiredInitError e =>
    let r1 := finallyBlock { t with isLeader := true }
    (r1.1, catchHandler e, r1.2)
  | .acquiredThenRelinquished api =>
    let t1 : Tab V := { t with isLeader := true }
    let t2 : Tab V := { t1 with api := some api, isLeaderReady := true }
    let r3 := readyReplay (_postMessage fuel) t2 t2.queuedCalls
    let t4 : Tab V := { r3.1 with queuedCalls := [] }
    let r5 := _postMessage fuel t4 To.Others "onLeader" [.val t4.state]
    let r6 := finallyBlock r5.1
    (r6.1, .ok true, r3.2 ++ [.event "leadershipchange"] ++ r5.2 ++ r6.2)

end TabElection

/-!
The heartbeat/election variant (`waitForLeadership` as a standalone
function over a BroadcastChannel, with PING/PONG membership and a
max-id election).  Only the pieces the claims touch are modelled.
-/
namespace HB

open TabElection (Arg)

/-- The closure state of the heartbeat variant relevant to `state()`. -/
structure HBTab (V : Type) where
  id : String
  /-- Source `leaderId`, the empty string when no leader is known. -/
  leaderId : String := ""
  /-- Source `leaderState`; `none` models `undefined`. -/
  leaderState : Option V := none
  deriving DecidableEq, Repr

/-- Observable effects of a heartbeat-variant step.  `posted` records a
`postMessage(name, ...rest)`; `sendSelf` is false when the source
appended the `DONT_RECEIVE` sentinel (no synthetic self-delivery). -/
inductive HBOutput (V : Type)
  | posted (name : String) (rest : List (Arg V)) (sendSelf : Bool)
  | logged (msg : String)
  /-- every registered `onState` listener was invoked with `v`. -/
  | stateListeners (v : V)
  deriving DecidableEq, Repr

/-- Source `onUserState(state)`: record the leader state and notify listeners. -/
def onUserState {V : Type} (t : HBTab V) (v : V) : HBTab V × List (HBOutput V) :=
  ({ t with leaderState := some v }, [.stateListeners v])

/-- The setter path of `state(state)` (argument provided): non-leaders
only get a `console.error`; the leader records the state, posts a STATE
message with the `DONT_RECEIVE` sentinel, and runs `onUserState`. -/
def state {V : Type} (t : HBTab V) (v : V) : HBTab V × List (HBOutput V) :=
  if ¬ t.leaderId = t.id then (t, [.logged "Only the leader can set state"])
  else
    let t1 : HBTab V := { t with leaderState := some v }
    let r2 := onUserState t1 v
    (r2.1, [.posted "state" [.val v] false] ++ r2.2)

/-- The leader-adoption rule of `onTabPromote(newLeaderId)`:
`if (!leaderId || leaderId < newLeaderId) leaderId = newLeaderId`. -/
def onTabPromote (leaderId newLeaderId : String) : String :=
  if leaderId = "" ∨ leaderId < newLeaderId then newLeaderId else leaderId

end HB

/-! Concrete peers used to exercise the model. -/

/-- A plain follower tab. -/
def sampleTab : TabElection.Tab Nat := { id := "tabA", state := 0 }

/-- A ready leader whose method table has no callable entries. -/
def apiLeaderTab : TabElection.Tab Nat :=
  { id := "L", isLeader := true, isLeaderReady := true, state := 0,
    api := some (fun _ => none) }

/-- A follower with one pending call (number 4). -/
def pendingTab : TabElection.Tab Nat :=
  { id := "tabB", state := 0, callDeferreds := [(4, ⟨30000⟩)] }

/-- A follower holding one queued call (number 5, `echo(3)`, queued by
itself) at the moment an `onLeader` notification arrives. -/
def queuedFollowerTab : TabElection.Tab Nat :=
  { id := "caller1", state := 0, queuedCalls := [(5, ⟨"caller1", "echo", [3]⟩)] }

/-- A heartbeat-variant peer that is not the leader. -/
def followerHB : HB.HBTab Nat := { id := "F", leaderId := "L" }

/-- A heartbeat-variant peer that is the leader. -/
def leaderHB : HB.HBTab Nat := { id := "L", leaderId := "L" }

namespace TabElection

/-- Updating an existing key in place leaves it findable with the new
value. -/
theorem find_map_update {α : Type} (k : Nat) (v : α) :
    ∀ m : List (Nat × α), m.any (fun p => p.1 = k) = true →
      (m.map (fun p => if p.1 = k then (k, v) else p)).find? (fun p => p.1 = k) =
        some (k, v) := by
  intro m
  induction m with
  | nil => intro h; simp at h
  | cons hd tl ih =>
    intro h
    by_cases hk : hd.1 = k
    · simp [List.find?_cons_of_pos, hk]
    · have htl : tl.any (fun p => p.1 = k) = true := by
        simp [List.any_cons, hk] at h
        simpa using h
      simp only [List.map_cons, if_neg hk]
      rw [List.find?_cons_of_neg _ (by simpa using hk)]
      exact ih htl

/-- Appending a fresh key makes it findable. -/
theorem find_append_fresh {α : Type} (k : Nat) (v : α) :
    ∀ m : List (Nat × α), m.any (fun p => p.1 = k) = false →
      (m ++ [(k, v)]).find? (fun p => p.1 = k) = some (k, v) := by
  intro m
  induction m with
  | nil => intro _; simp [List.find?]
  | cons hd tl ih =>
    intro h
    rw [List.any_cons, Bool.or_eq_false_iff] at h
    rw [List.cons_append, List.find?_cons_of_neg _ (by simpa using h.1)]
    exact ih h.2

/-- Source `Map.set` followed by `Map.get` of the same key yields the value. -/
theorem mapGet_mapSet {α : Type} (m : List (Nat × α)) (k : Nat) (v : α) :
    mapGet (mapSet m k v) k = some v := by
  unfold mapGet mapSet
  cases hb : m.any (fun p => p.1 = k) with
  | true => simp only [hb, if_true, find_map_update k v m hb, Option.map_some']
  | false =>
    simp only [hb, Bool.false_eq_true, if_false, find_append_fresh k v m hb,
      Option.map_some']

/-- A non-falsy target always results in the envelope being posted. -/
theorem posted_mem_postMessage {V : Type} (fuel : Nat) (t : Tab V)
    (tgt : Target) (name : String) (rest : List (Arg V))
    (h : targetFalsy tgt = false) :
    Output.posted tgt name rest ∈ (_postMessage fuel t tgt name rest).2 := by
  unfold _postMessage
  simp only [h, Bool.false_eq_true, if_false]
  by_cases htm : (!(tgt = To.Others : Bool) && isToMe t tgt) = true
  · simp only [htm, if_true]
    cases fuel <;> simp
  · simp [htm]

end TabElection

/-! Claim theorems. -/

/-- C1: a settling `waitForLeadership` invocation resolves `true` when
the peer acquired the lock and `relinquishLeadership` was then called,
and resolves `false` when `relinquishLeadership` aborted the request
before the lock was ever acquired. -/
theorem c1_waitForLeadership_resolution {V : Type} (fuel : Nat)
    (t : TabElection.Tab V) :
    (∀ api : TabElection.Api V,
      (TabElection.waitForLeadership fuel t
        (.acquiredThenRelinquished api)).2.1 = .ok true) ∧
    (TabElection.waitForLeadership fuel t .abortedBeforeAcquire).2.1 =
      .ok false := by
  refine ⟨fun api => ?_, ?_⟩ <;>
    simp [TabElection.waitForLeadership, TabElection.catchHandler]

/-- C2: replaying a queued call through `_onLeader` posts the `onCall`
message without the queued caller id — the argument list starts with the
call number, so the leader cannot dispatch it back to `caller1`; the
properly-formed envelope (the one `call` itself posts for the same RPC)
never appears among the outputs. -/
theorem c2_onLeader_replay_drops_caller_id :
    (TabElection._onLeader (TabElection._postMessage 4) queuedFollowerTab 7).2 =
      [.event "state",
       .posted TabElection.To.Leader "onCall" [.num 5, .str "echo", .val 3]] ∧
    ¬ (TabElection.Output.posted TabElection.To.Leader "onCall"
        [.str "caller1", .num 5, .str "echo", .val 3] ∈
      (TabElection._onLeader (TabElection._postMessage 4) queuedFollowerTab 7).2) ∧
    (TabElection.call 4 queuedFollowerTab (some true) "echo" [3]).2.2 =
      [.posted TabElection.To.Leader "onCall"
        [.str "caller1", .num 1, .str "echo", .val 3]] := by
  refine ⟨by decide, by decide, by decide⟩

/-- C3: `call` registers a pending call keyed by the fresh call number
with a 30-second (30 000 ms) timeout; the timeout handler removes the
pending call and rejects with the timeout error; and a RETURN arriving
for an already-removed call number only logs, leaving the state and
every promise untouched. -/
theorem c3_pending_call_timeout {V : Type} (t : TabElection.Tab V)
    (callNumber : Nat) (e : Option String) (r : Option V) :
    (TabElection.mapGet (TabElection.callRegister t).1.callDeferreds
        (TabElection.callRegister t).2 = some ⟨30000⟩) ∧
    (TabElection.callTimeoutFire t callNumber =
      ({ t with callDeferreds := TabElection.mapDelete t.callDeferreds callNumber },
        [.rejected callNumber "Call timed out"])) ∧
    (TabElection.mapGet t.callDeferreds callNumber = none →
      TabElection._onReturn t callNumber e r =
        (t, [.logged "No deferred found for call"])) := by
  refine ⟨?_, rfl, fun h => ?_⟩
  · simp [TabElection.callRegister, TabElection.mapGet_mapSet]
  · simp [TabElection._onReturn, h]

/-- C3 witness at concrete input: a RETURN for an unknown call number is
only logged. -/
theorem c3_pending_call_timeout_witness :
    TabElection.mapGet sampleTab.callDeferreds 5 = none ∧
    TabElection._onReturn sampleTab 5 none none =
      (sampleTab, [.logged "No deferred found for call"]) :=
  ⟨rfl, (c3_pending_call_timeout sampleTab 5 none none).2.2 rfl⟩

/-- C4: `setState` on a non-leader throws (class variant) or logs
(heartbeat variant); on the leader it updates the local copy and
broadcasts one `onState` message addressed `To.Others`, with no
synthetic self re-delivery (heartbeat variant: posts STATE with the
`DONT_RECEIVE` sentinel and notifies local listeners directly). -/
theorem c4_setState_leader_only {V : Type} (fuel : Nat)
    (t : TabElection.Tab V) (v : V) (h : HB.HBTab V) :
    (t.isLeader = false →
      TabElection.setState fuel t v = .error "Only the leader can set state") ∧
    (t.isLeader = true →
      TabElection.setState fuel t v =
        .ok ({ t with state := v },
          [.event "state", .posted TabElection.To.Others "onState" [.val v]])) ∧
    (¬ h.leaderId = h.id →
      HB.state h v = (h, [.logged "Only the leader can set state"])) ∧
    (h.leaderId = h.id →
      HB.state h v = ({ h with leaderState := some v },
        [.posted "state" [.val v] false, .stateListeners v])) := by
  refine ⟨fun hL => ?_, fun hL => ?_, fun hH => ?_, fun hH => ?_⟩
  · simp [TabElection.setState, hL]
  · simp [TabElection.setState, hL, TabElection._onState, TabElection._postMessage,
      TabElection.targetFalsy, TabElection.To.Others, TabElection.isToMe]
  · simp [HB.state, hH]
  · simp [HB.state, hH, HB.onUserState]

/-- C4 witness at concrete inputs: a leader broadcast and a non-leader
log. -/
theorem c4_setState_leader_only_witness :
    TabElection.setState 1 apiLeaderTab 7 =
      .ok ({ apiLeaderTab with state := 7 },
        [.event "state", .posted TabElection.To.Others "onState" [.val 7]]) ∧
    HB.state followerHB 7 = (followerHB, [.logged "Only the leader can set state"]) :=
  ⟨(c4_setState_leader_only 1 apiLeaderTab 7 followerHB).2.1 rfl,
   (c4_setState_leader_only 1 apiLeaderTab 7 followerHB).2.2.1 (by decide)⟩

/-- C5: on a ready leader whose method table has no callable entry for
the requested name, `_onCall` posts a RETURN addressed to the caller
carrying the synthesized "Invalid API method" error in its error slot;
for a non-empty caller id that envelope is among the emitted outputs;
and `_onReturn` on such an error rejects the caller's pending promise
with that error. -/
theorem c5_invalid_method {V : Type} (fuel : Nat)
    (t t' : TabElection.Tab V) (id : String) (cn : Nat) (mname : String)
    (rest : List V) (d : TabElection.Deferred) :
    (t.isLeader = true → t.isLeaderReady = true →
      t.api.bind (fun a => a mname) = none →
      TabElection._onCall (TabElection._postMessage fuel) t id cn mname rest =
        TabElection._postMessage fuel { t with callerId := none } (.str id)
          "onReturn" [.num cn, .err (TabElection.invalidApiMethod mname)]) ∧
    (t.isLeader = true → t.isLeaderReady = true →
      t.api.bind (fun a => a mname) = none → ¬ id = "" →
      TabElection.Output.posted (.str id) "onReturn"
          [.num cn, .err (TabElection.invalidApiMethod mname)] ∈
        (TabElection._onCall (TabElection._postMessage fuel) t id cn mname rest).2) ∧
    (TabElection.mapGet t'.callDeferreds cn = some d →
      TabElection._onReturn t' cn (some (TabElection.invalidApiMethod mname)) none =
        ({ t' with callDeferreds := TabElection.mapDelete t'.callDeferreds cn },
          [.rejected cn (TabElection.invalidApiMethod mname)])) := by
  have hcall : t.isLeader = true → t.isLeaderReady = true →
      t.api.bind (fun a => a mname) = none →
      TabElection._onCall (TabElection._postMessage fuel) t id cn mname rest =
        TabElection._postMessage fuel { t with callerId := none } (.str id)
          "onReturn" [.num cn, .err (TabElection.invalidApiMethod mname)] := by
    intro h1 h2 h3
    simp [TabElection._onCall, h1, h2, h3]
  refine ⟨hcall, fun h1 h2 h3 hid => ?_, fun hd => ?_⟩
  · rw [(hcall h1 h2 h3 : _)]
    exact TabElection.posted_mem_postMessage fuel _ _ _ _
      (by simp [TabElection.targetFalsy, hid])
  · simp [TabElection._onReturn, hd]

/-- C5 witness at concrete input: the missing-method dispatch on a ready
leader and the caller-side rejection. -/
theorem c5_invalid_method_witness :
    TabElection._onCall (TabElection._postMessage 1) apiLeaderTab "caller1" 4
        "nope" [] =
      TabElection._postMessage 1 { apiLeaderTab with callerId := none }
        (.str "caller1") "onReturn"
        [.num 4, .err (TabElection.invalidApiMethod "nope")] ∧
    TabElection._onReturn pendingTab 4
        (some (TabElection.invalidApiMethod "nope")) none =
      ({ pendingTab with
          callDeferreds := TabElection.mapDelete pendingTab.callDeferreds 4 },
        [.rejected 4 (TabElection.invalidApiMethod "nope")]) :=
  ⟨(c5_invalid_method 1 apiLeaderTab pendingTab "caller1" 4 "nope" [] ⟨30000⟩).1
      rfl rfl rfl,
   (c5_invalid_method 1 apiLeaderTab pendingTab "caller1" 4 "nope" [] ⟨30000⟩).2.2
      rfl⟩

/-- C6: on PROMOTE(candidateId) the heartbeat-variant peer adopts the
candidate as leader exactly when it has no current leader or the
candidate id is lexicographically greater; otherwise its leader belief
is unchanged. -/
theorem c6_promote_adopt_iff (cur cand : String) :
    (cur = "" ∨ cur < cand → HB.onTabPromote cur cand = cand) ∧
    (¬ cur = "" → ¬ cur < cand → HB.onTabPromote cur cand = cur) := by
  constructor
  · intro h; unfold HB.onTabPromote; rw [if_pos h]
  · intro h1 h2
    have hn : ¬ (cur = "" ∨ cur < cand) := by
      intro hc; rcases hc with hc | hc
      · exact h1 hc
      · exact h2 hc
    unfold HB.onTabPromote; rw [if_neg hn]

/-- C6 witness at concrete input: a peer with no current leader adopts
the campaigning candidate. -/
theorem c6_promote_adopt_iff_witness :
    ("" = "" ∨ "" < "b") ∧ HB.onTabPromote "" "b" = "b" :=
  ⟨Or.inl rfl, (c6_promote_adopt_iff "" "b").1 (Or.inl rfl)⟩

/-- C7 counterexample: `hasLeader` with an available lock on the first
probe performs a single probe and resolves with no boolean at all, so
the probe is not always performed twice with the second result
returned. -/
theorem c7_counterexample :
    ¬ ((TabElection.hasLeader false true).2 = 2 ∧
       (TabElection.hasLeader false true).1 = some true) := by decide

/-- C7 (amended): only when the first probe reports the lock unavailable
is a second probe performed and its result returned; when the first
probe acquires the lock, a single probe happens and the method resolves
with no value. -/
theorem c7_hasLeader_double_probe (p1 p2 : Bool) :
    (p1 = true → TabElection.hasLeader p1 p2 = (some p2, 2)) ∧
    (p1 = false → TabElection.hasLeader p1 p2 = (none, 1)) := by
  cases p1 <;> simp [TabElection.hasLeader]

/-- C7 witness at concrete input: both probes unavailable. -/
theorem c7_hasLeader_double_probe_witness :
    TabElection.hasLeader true true = (some true, 2) :=
  (c7_hasLeader_double_probe true true).1 rfl

/-- C8: however a `waitForLeadership` run settles, the final state has
`isLeader = false` and a cleared API table, and a `leadershipchange`
event is among the dispatched outputs. -/
theorem c8_waitForLeadership_settles_clean {V : Type} (fuel : Nat)
    (t : TabElection.Tab V) (run : TabElection.LockRun V) :
    ((TabElection.waitForLeadership fuel t run).1.isLeader = false) ∧
    ((TabElection.waitForLeadership fuel t run).1.api = none) ∧
    TabElection.Output.event "leadershipchange" ∈
      (TabElection.waitForLeadership fuel t run).2.2 := by
  cases run <;>
    simp [TabElection.waitForLeadership, TabElection.finallyBlock]

/-- C9: `hasLeader` resolves a boolean only when the first probe reports
the lock unavailable; when the first probe acquires the lock the method
resolves with no value (`undefined`), not `false`. -/
theorem c9_hasLeader_undefined_when_available (p1 p2 : Bool) :
    (∀ b : Bool, (TabElection.hasLeader p1 p2).1 = some b → p1 = true) ∧
    (p1 = false → (TabElection.hasLeader p1 p2).1 = none) := by
  cases p1 <;> simp [TabElection.hasLeader]

/-- C9 witness at concrete input: first probe acquires the lock. -/
theorem c9_hasLeader_undefined_when_available_witness :
    (TabElection.hasLeader false true).1 = none :=
  (c9_hasLeader_undefined_when_available false true).2 rfl

/-- C10: `_postMessage` (and `send` through it) with a falsy target or
an empty id `Set` is a no-op: nothing is posted, no handler or listener
runs, and the peer state is unchanged. -/
theorem c10_postMessage_falsy_noop {V : Type} (fuel : Nat)
    (t : TabElection.Tab V) (tgt : TabElection.Target) (name : String)
    (rest : List (TabElection.Arg V)) (data : TabElection.Arg V) :
    TabElection.targetFalsy tgt = true →
      TabElection._postMessage fuel t tgt name rest = (t, []) ∧
      TabElection.send fuel t data tgt = (t, []) := by
  intro h
  refine ⟨?_, ?_⟩
  · unfold TabElection._postMessage
    simp [h]
  · unfold TabElection.send TabElection._postMessage
    simp [h]

/-- C10 witness at concrete input: sending to an empty `Set` of ids. -/
theorem c10_postMessage_falsy_noop_witness :
    TabElection.targetFalsy (TabElection.Target.idSet []) = true ∧
    TabElection.send 1 sampleTab (.num 3) (TabElection.Target.idSet []) =
      (sampleTab, []) :=
  ⟨rfl,
   (c10_postMessage_falsy_noop 1 sampleTab (TabElection.Target.idSet [])
      "onSend" [] (.num 3) rfl).2⟩
